import Mathlib

/-!
Verification of the chat-rag context-compression pipeline core.

The Go sources are shallowly embedded: strings are modelled as `String`
(indices counting characters), Go slices of messages as `List Message`,
the dynamically typed `interface{}` content union as the inductive
`ContentVal`, and fallible operations as `Except`.  Definitions carry the
names of the Go functions they embed.  Parts of the repository that are
only visible through their callers (the `PromptMsg` aggregate, content
normalisation, the user compressor) are modelled from the specification
and marked as such in their doc comments.
-/

/-- First index (in characters) at which `pat` occurs in `l`, scanning from
the front; mirrors Go `strings.Index` restricted to the character level. -/
def firstIdx : List Char → List Char → Option Nat
  | [], pat => if pat.isEmpty then some 0 else none
  | c :: rest, pat =>
    if pat.isPrefixOf (c :: rest) then some 0
    else (firstIdx rest pat).map (· + 1)

/-- Go `strings.Index` (character positions). -/
def goIndex (s pat : String) : Option Nat :=
  firstIdx s.data pat.data

/-- Go `strings.Contains`. -/
def goContains (s pat : String) : Bool :=
  (goIndex s pat).isSome

/-- Go slice `s[:n]` (character positions). -/
def goTake (s : String) (n : Nat) : String :=
  ⟨s.data.take n⟩

/-- Go slice `s[n:]` (character positions). -/
def goDrop (s : String) (n : Nat) : String :=
  ⟨s.data.drop n⟩

/-- Go slice `s[a:b]` (character positions). -/
def goSlice (s : String) (a b : Nat) : String :=
  ⟨(s.data.drop a).take (b - a)⟩

/-- Go `strings.TrimSpace`: drops leading and trailing whitespace
characters. -/
def goTrimSpace (s : String) : String :=
  ⟨((s.data.dropWhile Char.isWhitespace).reverse.dropWhile
      Char.isWhitespace).reverse⟩

/-- Message roles, from `internal/types`. -/
inductive Role where
  | system
  | user
  | assistant
  | tool
deriving DecidableEq, Repr

/-- A primitive Go `interface{}` value as far as the content helpers
inspect it: either a string or some other dynamic value. -/
inductive GoPrim where
  | str (s : String)
  | other
deriving DecidableEq, Repr

/-- An element of a Go `[]any` content list: either a `map[string]any`
(of which only the `type` and `text` keys are ever read) or a non-map
value. -/
inductive AnyItem where
  | map (ty : Option GoPrim) (text : Option GoPrim)
  | nonMap
deriving DecidableEq, Repr

/-- Modelled from the spec: the `model.Content` block of the missing
`internal/model` package, the ContentBlock of the data model —
`{type, text, cache_hint}`; `cacheEphemeral` is true when the Go
`CacheControl` field holds `model.EphemeralCacheControl`. -/
structure Content where
  type : String
  text : String
  cacheEphemeral : Bool
deriving DecidableEq, Repr

/-- The dynamic content union (`interface{}`) a message carries: a plain
string, a raw `[]any` list, a normalized `[]model.Content` list, or any
other dynamic value. -/
inductive ContentVal where
  | str (s : String)
  | anyList (items : List AnyItem)
  | contents (cs : List Content)
  | other
deriving DecidableEq, Repr

/-- `types.Message`: a role plus a dynamic content value. -/
structure Message where
  role : Role
  content : ContentVal
deriving DecidableEq, Repr

/-- `ContentTypeText` from `internal/utils`. -/
def ContentTypeText : String := "text"

/-- `model.ContTypeText` (same literal, name of the missing model package). -/
def ContTypeText : String := "text"

/-- `utils.GetContentAsString`: converts a dynamic content value to a
string without parsing internal structure; embeds the four type switches
of the Go function. -/
def GetContentAsString : ContentVal → String
  | .str s => s
  | .anyList items =>
    items.foldl
      (fun acc item =>
        match item with
        | .map ty text =>
          if ty = some (.str ContentTypeText) then
            match text with
            | some (.str t) => acc ++ t
            | _ => acc
          else acc
        | .nonMap => acc)
      ""
  | .contents cs => cs.foldl (fun acc c => acc ++ c.text) ""
  | .other => ""

/-- `utils.GetSystemMsg`: first role=system message, or a synthetic empty
system message when none exists. -/
def GetSystemMsg : List Message → Message
  | [] => { role := .system, content := .str "" }
  | m :: rest => if m.role = .system then m else GetSystemMsg rest

/-- Position (0-based, counted in the reversed list) of the `num`-th
role=user message from the end; embeds the backward scan shared by
`GetRecentUserMsgsWithNum` and `GetOldUserMsgsWithNum`. -/
def nthUserIdxRev : List Message → Nat → Option Nat
  | [], _ => none
  | m :: rest, k =>
    if m.role = .user then
      if k ≤ 1 then some 0
      else (nthUserIdxRev rest (k - 1)).map (· + 1)
    else (nthUserIdxRev rest k).map (· + 1)

/-- Index (in the original list) of the `num`-th role=user message from
the end, or `none` when fewer than `num` user messages exist. -/
def nthUserPosFromEnd (messages : List Message) (num : Nat) : Option Nat :=
  (nthUserIdxRev messages.reverse num).map (fun j => messages.length - 1 - j)

/-- The `sysPos` computation of `GetOldUserMsgsWithNum`: index of the
first role=system message, defaulting to 0 when none exists. -/
def sysPos (messages : List Message) : Nat :=
  match messages.findIdx? (fun m => m.role == Role.system) with
  | some i => i
  | none => 0

/-- `utils.GetRecentUserMsgsWithNum`: messages from the `num`-th-last
user message onwards; the whole list when `num ≤ 0`; empty when fewer
than `num` user messages exist. -/
def GetRecentUserMsgsWithNum (messages : List Message) (num : Int) : List Message :=
  if num ≤ 0 then messages
  else
    match nthUserPosFromEnd messages num.toNat with
    | none => []
    | some p => messages.drop p

/-- `utils.GetOldUserMsgsWithNum`: messages strictly between the first
system message and the `num`-th-last user message. -/
def GetOldUserMsgsWithNum (messages : List Message) (num : Int) : List Message :=
  if num ≤ 0 then messages
  else if num ≥ (messages.length : Int) then []
  else
    let sp := sysPos messages
    match nthUserPosFromEnd messages num.toNat with
    | none =>
      if sp + 1 ≥ messages.length then []
      else messages.drop (sp + 1)
    | some up =>
      if sp ≥ up then []
      else (messages.drop (sp + 1)).take (up - (sp + 1))

/-- `utils.GetLastUserMsg`: the newest user message, failing when none
exists. -/
def GetLastUserMsg (messages : List Message) : Except String Message :=
  match GetRecentUserMsgsWithNum messages 1 with
  | [] => .error "no user message found"
  | m :: _ => .ok m

/-- Number of role=user messages in a list. -/
def userMsgCount (messages : List Message) : Nat :=
  (messages.filter (fun m => m.role == Role.user)).length

example : GetRecentUserMsgsWithNum
    [⟨.system, .str "s"⟩, ⟨.user, .str "u1"⟩, ⟨.user, .str "u2"⟩] 1 =
    [⟨.user, .str "u2"⟩] := by decide

example : GetRecentUserMsgsWithNum
    [⟨.system, .str "s"⟩, ⟨.user, .str "u1"⟩, ⟨.user, .str "u2"⟩,
      ⟨.user, .str "u3"⟩] 2 =
    [⟨.user, .str "u2"⟩, ⟨.user, .str "u3"⟩] := by decide

example : GetOldUserMsgsWithNum
    [⟨.system, .str "s"⟩, ⟨.user, .str "u1"⟩, ⟨.user, .str "u2"⟩,
      ⟨.user, .str "u3"⟩] 1 =
    [⟨.user, .str "u1"⟩, ⟨.user, .str "u2"⟩] := by decide

example : GetOldUserMsgsWithNum
    [⟨.system, .str "s"⟩, ⟨.user, .str "u1"⟩] 0 =
    [⟨.system, .str "s"⟩, ⟨.user, .str "u1"⟩] := by decide

example : GetOldUserMsgsWithNum [⟨.user, .str "u1"⟩] 1 = [] := by decide

instance instDecEqExcept {ε α : Type} [DecidableEq ε] [DecidableEq α] :
    DecidableEq (Except ε α)
  | .error x, .error y =>
    if h : x = y then .isTrue (by rw [h]) else .isFalse (by simp [h])
  | .error _, .ok _ => .isFalse (by simp)
  | .ok _, .error _ => .isFalse (by simp)
  | .ok x, .ok y =>
    if h : x = y then .isTrue (by rw [h]) else .isFalse (by simp [h])

/-- Modelled from the spec: normalization of the content union into the
block-sequence form (`model.Content.ExtractMsgContent`, whose source is
not in the repository excerpt).  A plain string flattens into one text
block, a raw `[]any` list keeps exactly its text entries, an already
normalized block list is returned as is, and any other dynamic value is
rejected. -/
def ExtractMsgContent : ContentVal → Except String (List Content)
  | .str s => .ok [{ type := ContTypeText, text := s, cacheEphemeral := false }]
  | .anyList items =>
    .ok (items.filterMap
      (fun item =>
        match item with
        | .map ty text =>
          if ty = some (.str ContTypeText) then
            match text with
            | some (.str t) =>
              some { type := ContTypeText, text := t, cacheEphemeral := false }
            | _ => none
          else none
        | .nonMap => none))
  | .contents cs => .ok cs
  | .other => .error "unsupported content type"

/-- Modelled from the spec: the Conversation State aggregate
(`processor.PromptMsg`, whose source is not in the repository excerpt) —
the authoritative system message, the older and recent windows, and the
mutable reference to the last user message (absent when no user message
exists).  Field names follow the accesses visible in the excerpted
stages. -/
structure PromptMsg where
  systemMsg : Message
  olderUserMsgList : List Message
  recentUserMsgList : List Message
  lastUserMsg : Option Message
deriving DecidableEq, Repr

/-- Modelled from the spec: `PromptMsg.UpdateSystemMsg` replaces the
system message's content and touches no other field. -/
def UpdateSystemMsg (pm : PromptMsg) (text : String) : PromptMsg :=
  { pm with systemMsg := { pm.systemMsg with content := .str text } }

/-- Modelled from the spec: `BaseProcessor.extractSystemContent`
(source not in the excerpt) — the textual content of the system message,
failing when the content cannot be normalized to text. -/
def extractSystemContent (m : Message) : Except String String :=
  match m.content with
  | .other => .error "unsupported system content"
  | v => .ok (GetContentAsString v)

/-- Outcome of one stage execution: the (possibly unchanged) state, the
`Handled` flag, whether the `Err` field was set, and whether control was
passed to the next stage. -/
structure ExecResult where
  state : Option PromptMsg
  handled : Bool
  errSet : Bool
  passedToNext : Bool
deriving DecidableEq, Repr

/-- The fixed intervention text of `LoopDetector.addInterventionToUserMessage`. -/
def interventionText : String :=
  "Stop trying repetitive actions and rethink the actions to take. You can use different tools, and if you're unsure of the user's intent or goal, you can ask questions."

/-- The intervention content block appended by the loop detector. -/
def interventionContent : Content :=
  { type := ContTypeText, text := interventionText, cacheEphemeral := false }

/-- `LoopDetector.addInterventionToUserMessage`: fails when no last user
message exists or its contents cannot be extracted; otherwise appends the
intervention block to the last user message. -/
def addInterventionToUserMessage (pm : PromptMsg) : Except String PromptMsg :=
  match pm.lastUserMsg with
  | none => .error "last user message is nil"
  | some u =>
    match ExtractMsgContent u.content with
    | .error e => .error e
    | .ok contents =>
      .ok { pm with
              lastUserMsg := some { u with
                content := .contents (contents ++ [interventionContent]) } }

/-- The two most recent role=assistant messages of a window, oldest
first, as collected by the backward scan of `detectAndHandleLoops`. -/
def lastAssistants (l : List Message) : List Message :=
  ((l.reverse.filter (fun m => m.role == Role.assistant)).take 2).reverse

/-- `LoopDetector.detectAndHandleLoops`: below 3 older-window messages,
or below two assistant messages, no-op; otherwise compares the trimmed
texts of the two most recent assistant messages and, on equality,
appends the intervention block (an extraction error is logged and leaves
the state unchanged). -/
def detectAndHandleLoops (pm : PromptMsg) : PromptMsg :=
  if pm.olderUserMsgList.length < 3 then pm
  else
    match lastAssistants pm.olderUserMsgList with
    | [a0, a1] =>
      if goTrimSpace (GetContentAsString a0.content)
          = goTrimSpace (GetContentAsString a1.content) then
        match addInterventionToUserMessage pm with
        | .ok pm1 => pm1
        | .error _ => pm
      else pm
    | _ => pm

/-- `LoopDetector.Execute`: a nil prompt message sets `Err` and returns
without passing to the next stage; otherwise loops are detected and
handled, `Handled` is set to true, and control passes on. -/
def loopDetectorExecute (pm? : Option PromptMsg) : ExecResult :=
  match pm? with
  | none =>
    { state := none, handled := false, errSet := true, passedToNext := false }
  | some pm =>
    { state := some (detectAndHandleLoops pm), handled := true,
      errSet := false, passedToNext := true }

/-- `ToolDescStartPattern`. -/
def ToolDescStartPattern : String := "====\n\nTOOL USE"

/-- `ToolDescEndPattern`. -/
def ToolDescEndPattern : String := "\n\n====\n\nCAPABILITIES"

/-- `ApplyDiffErrorMessage`. -/
def ApplyDiffErrorMessage : String := "Failed to parse apply_diff XML"

/-- `ApplyDiffSectionPattern`. -/
def ApplyDiffSectionPattern : String := "## apply_diff"

/-- `ApplyDiffNextSectionPattern`. -/
def ApplyDiffNextSectionPattern : String := "\n## "

/-- `ToolDescriptionExtractor.findToolDescriptionBounds`: start and
(exclusive) end of the tool-description block, or `none` when either
pattern is missing. -/
def findToolDescriptionBounds (systemContent : String) : Option (Nat × Nat) :=
  match goIndex systemContent ToolDescStartPattern with
  | none => none
  | some s =>
    match goIndex (goDrop systemContent s) ToolDescEndPattern with
    | none => none
    | some e => some (s, s + e)

/-- `ToolDescriptionExtractor.hasApplyDiffError`: whether any content
block of the last user message contains the apply_diff parse-failure
marker. -/
def hasApplyDiffError (contents : List Content) : Bool :=
  contents.any (fun c => goContains c.text ApplyDiffErrorMessage)

/-- `ToolDescriptionExtractor.extractApplyDiffSection`: the apply_diff
section of the tool description, empty when the heading is missing or no
further section heading follows it. -/
def extractApplyDiffSection (toolDescription : String) : String :=
  match goIndex toolDescription ApplyDiffSectionPattern with
  | none => ""
  | some s =>
    match goIndex (goDrop toolDescription s) ApplyDiffNextSectionPattern with
    | none => ""
    | some e => goSlice toolDescription s (s + e)

/-- `ToolDescriptionExtractor.addApplyDiffUsage`: appends the extracted
apply_diff section wrapped in `<apply_diff_usage>` tags, or returns the
contents unchanged when the section cannot be extracted. -/
def addApplyDiffUsage (contents : List Content) (toolDescription : String) :
    List Content :=
  let applyDiffContent := extractApplyDiffSection toolDescription
  if applyDiffContent = "" then contents
  else
    contents ++
      [{ type := ContTypeText,
         text := "<apply_diff_usage>\n" ++ applyDiffContent ++ "</apply_diff_usage>",
         cacheEphemeral := true }]

/-- `ToolDescriptionExtractor.addToolDescription`: appends the whole
tool description wrapped in `<tool_description>` tags. -/
def addToolDescription (contents : List Content) (toolDescription : String) :
    List Content :=
  contents ++
    [{ type := ContTypeText,
       text := "<tool_description>\n" ++ toolDescription ++ "</tool_description>",
       cacheEphemeral := true }]

/-- `ToolDescriptionExtractor.addToolDescriptionToUserMessage`: returns
success without modification when no last user message exists; otherwise
extracts the contents (an error propagates) and appends either the
apply_diff section or the whole tool description. -/
def addToolDescriptionToUserMessage (pm : PromptMsg) (toolDescription : String) :
    Except String PromptMsg :=
  match pm.lastUserMsg with
  | none => .ok pm
  | some u =>
    match ExtractMsgContent u.content with
    | .error e => .error e
    | .ok contents =>
      let contents1 :=
        if hasApplyDiffError contents then addApplyDiffUsage contents toolDescription
        else addToolDescription contents toolDescription
      .ok { pm with lastUserMsg := some { u with content := .contents contents1 } }

/-- `ToolDescriptionExtractor.Execute`: extracts the tool-description
block from the system message, injects it into the last user message,
and only after a successful injection removes the block from the system
message; every branch passes control to the next stage and never sets
`Handled` or `Err`. -/
def toolDescExecute (pm : PromptMsg) : ExecResult :=
  match extractSystemContent pm.systemMsg with
  | .error _ =>
    { state := some pm, handled := false, errSet := false, passedToNext := true }
  | .ok systemContent =>
    match findToolDescriptionBounds systemContent with
    | none =>
      { state := some pm, handled := false, errSet := false, passedToNext := true }
    | some (s, e) =>
      let toolDescription := goSlice systemContent s e
      let newSystemContent := goTake systemContent s ++ goDrop systemContent e
      match addToolDescriptionToUserMessage pm toolDescription with
      | .error _ =>
        { state := some pm, handled := false, errSet := false, passedToNext := true }
      | .ok pm1 =>
        { state := some (UpdateSystemMsg pm1 newSystemContent), handled := false,
          errSet := false, passedToNext := true }

/-- Modelled from the spec: `processor.NewPromptMsg` (source not in the
excerpt) — Parse of the Conversation State, which fails only when the
input list is empty; otherwise it takes the first system message (a
synthetic one when none exists), splits the post-system history at the
`num`-th-last user message into the older and recent windows, and points
`lastUserMsg` at the most recent user message when one exists. -/
def NewPromptMsg (num : Int) (messages : List Message) : Except String PromptMsg :=
  if messages.isEmpty then .error "empty message list"
  else
    .ok { systemMsg := GetSystemMsg messages,
          olderUserMsgList := GetOldUserMsgsWithNum messages num,
          recentUserMsgList := GetRecentUserMsgsWithNum messages num,
          lastUserMsg :=
            match GetLastUserMsg messages with
            | .ok m => some m
            | .error _ => none }

/-- Modelled from the spec: `PromptMsg.AssemblePrompt` — concatenates the
system message, the older window and the recent window in original
relative order; the mutation of `lastUserMsg` (a pointer into the list
in Go) is reflected by replacing the final user message of the recent
window. -/
def assemblePrompt (pm : PromptMsg) : List Message :=
  let recent :=
    match pm.lastUserMsg with
    | none => pm.recentUserMsgList
    | some u =>
      match nthUserPosFromEnd pm.recentUserMsgList 1 with
      | none => pm.recentUserMsgList
      | some p => (pm.recentUserMsgList.take p) ++ [u] ++ (pm.recentUserMsgList.drop (p + 1))
  pm.systemMsg :: (pm.olderUserMsgList ++ recent)

/-- `RagCompressProcessor.Arrange`, abstracted over the processor chain
`run`: a failing parse returns the original message list together with
the error; otherwise the chain runs on the parsed state and the final
prompt is assembled.  The Boolean records whether Arrange failed. -/
def Arrange (num : Int) (run : PromptMsg → PromptMsg) (messages : List Message) :
    List Message × Bool :=
  match NewPromptMsg num messages with
  | .error _ => (messages, true)
  | .ok pm => (assemblePrompt (run pm), false)

/-- Modelled from the spec: the synthetic summary message produced by the
Budget-Driven Summarizer, carrying the generated summary text. -/
def summaryMessage (s : String) : Message :=
  { role := .user, content := .str s }

/-- Outcome of the Budget-Driven Summarizer on the older window: the new
older window, how many times the generation collaborator was invoked,
and the `Handled` flag. -/
structure CompressOutcome where
  olderWindow : List Message
  generateCalls : Nat
  handled : Bool
deriving DecidableEq, Repr

/-- Modelled from the spec: `UserCompressor.Execute` (source not in the
excerpt) — measures the token count once; at or under the threshold, or
with an empty older window, it is a no-op with no generation call;
otherwise it invokes the generation collaborator exactly once
(`genResult` is that single call's outcome) and on success replaces the
entire older window by one synthetic summary message, while on error the
older window is left intact. -/
def userCompressorExecute (tokenCount threshold : Nat)
    (olderWindow : List Message) (genResult : Except String String) :
    CompressOutcome :=
  if tokenCount ≤ threshold then
    { olderWindow := olderWindow, generateCalls := 0, handled := false }
  else if olderWindow.isEmpty then
    { olderWindow := olderWindow, generateCalls := 0, handled := false }
  else
    match genResult with
    | .ok s =>
      { olderWindow := [summaryMessage s], generateCalls := 1, handled := true }
    | .error _ =>
      { olderWindow := olderWindow, generateCalls := 1, handled := false }

/-- Spec-side reading of the `[]any` branch: the concatenation of
exactly the `text` fields of entries whose `type` equals `"text"`, every
other entry skipped. -/
def textOfTextEntries : List AnyItem → String
  | [] => ""
  | item :: rest =>
    (match item with
     | .map ty text =>
       if ty = some (.str ContentTypeText) then
         match text with
         | some (.str t) => t
         | _ => ""
       else ""
     | .nonMap => "") ++ textOfTextEntries rest

theorem getContentAsString_anyList_fold (items : List AnyItem) (acc : String) :
    items.foldl
      (fun acc item =>
        match item with
        | .map ty text =>
          if ty = some (.str ContentTypeText) then
            match text with
            | some (.str t) => acc ++ t
            | _ => acc
          else acc
        | .nonMap => acc)
      acc = acc ++ textOfTextEntries items := by
  induction items generalizing acc with
  | nil => simp [textOfTextEntries]
  | cons item rest ih =>
    cases item with
    | map ty text =>
      by_cases hty : ty = some (.str ContentTypeText)
      · cases text with
        | none => simp [List.foldl_cons, textOfTextEntries, hty, ih, String.append_assoc]
        | some p =>
          cases p with
          | str t => simp [List.foldl_cons, textOfTextEntries, hty, ih, String.append_assoc]
          | other => simp [List.foldl_cons, textOfTextEntries, hty, ih, String.append_assoc]
      · simp [List.foldl_cons, textOfTextEntries, hty, ih, String.append_assoc]
    | nonMap => simp [List.foldl_cons, textOfTextEntries, ih]

/-- C9: `GetContentAsString` is total and never fails: a value that is
neither a string, a `[]any` list, nor a `[]model.Content` list yields
the empty string, and on a `[]any` list the result concatenates exactly
the `text` fields of entries whose `type` equals `"text"`, silently
skipping every other entry. -/
theorem getContentAsString_total_and_textOnly :
    GetContentAsString .other = "" ∧
    ∀ items : List AnyItem,
      GetContentAsString (.anyList items) = textOfTextEntries items := by
  refine ⟨rfl, fun items => ?_⟩
  have h := getContentAsString_anyList_fold items ""
  simpa [GetContentAsString] using h

/-- C8: `GetSystemMsg` returns the first role=system message regardless
of position, and a synthetic empty system message when none exists. -/
theorem getSystemMsg_first_or_synthetic :
    (∀ (pre : List Message) (m : Message) (post : List Message),
      m.role = .system → (∀ x ∈ pre, x.role ≠ .system) →
      GetSystemMsg (pre ++ m :: post) = m) ∧
    (∀ messages : List Message, (∀ x ∈ messages, x.role ≠ .system) →
      GetSystemMsg messages = { role := .system, content := .str "" }) := by
  constructor
  · intro pre m post hm hpre
    induction pre with
    | nil => simp [GetSystemMsg, hm]
    | cons p rest ih =>
      have hp : p.role ≠ .system := hpre p (by simp)
      simp only [List.cons_append, GetSystemMsg, if_neg hp]
      exact ih (fun x hx => hpre x (by simp [hx]))
  · intro messages hnone
    induction messages with
    | nil => rfl
    | cons p rest ih =>
      have hp : p.role ≠ .system := hnone p (by simp)
      simp only [GetSystemMsg, if_neg hp]
      exact ih (fun x hx => hnone x (by simp [hx]))

/-- Witness for C8 at concrete inputs: a system message in second
position is returned, and a list without one yields the synthetic
message. -/
theorem getSystemMsg_first_or_synthetic_witness :
    (Message.mk .system (.str "sys")).role = .system ∧
    (∀ x ∈ [Message.mk .user (.str "u")], x.role ≠ .system) ∧
    GetSystemMsg [Message.mk .user (.str "u"), Message.mk .system (.str "sys"),
      Message.mk .assistant (.str "a")] = Message.mk .system (.str "sys") :=
  ⟨by decide, by decide,
    getSystemMsg_first_or_synthetic.1 [Message.mk .user (.str "u")]
      (Message.mk .system (.str "sys")) [Message.mk .assistant (.str "a")]
      (by decide) (by decide)⟩

/-- C10: when `"## apply_diff"` occurs in the tool description but no
`"\n## "` heading follows it, `extractApplyDiffSection` returns the
empty string and `addApplyDiffUsage` leaves the contents unchanged, so
no re-teaching payload is injected. -/
theorem applyDiff_lastSection_noInjection (td : String) (s : Nat)
    (h1 : goIndex td ApplyDiffSectionPattern = some s)
    (h2 : goIndex (goDrop td s) ApplyDiffNextSectionPattern = none) :
    extractApplyDiffSection td = "" ∧
    ∀ contents : List Content, addApplyDiffUsage contents td = contents := by
  have hext : extractApplyDiffSection td = "" := by
    simp only [extractApplyDiffSection, h1, h2]
  exact ⟨hext, fun contents => by simp [addApplyDiffUsage, hext]⟩

/-- Witness for C10 at a tool description whose apply_diff section is
last. -/
theorem applyDiff_lastSection_noInjection_witness :
    goIndex "x## apply_diff rest" ApplyDiffSectionPattern = some 1 ∧
    goIndex (goDrop "x## apply_diff rest" 1) ApplyDiffNextSectionPattern = none ∧
    extractApplyDiffSection "x## apply_diff rest" = "" ∧
    addApplyDiffUsage [Content.mk ContTypeText "c" false] "x## apply_diff rest" =
      [Content.mk ContTypeText "c" false] :=
  ⟨by decide, by decide,
    (applyDiff_lastSection_noInjection "x## apply_diff rest" 1 (by decide) (by decide)).1,
    (applyDiff_lastSection_noInjection "x## apply_diff rest" 1 (by decide) (by decide)).2
      [Content.mk ContTypeText "c" false]⟩

theorem nthUserIdxRev_eq_none (l : List Message) (k : Nat)
    (h : (l.filter (fun m => m.role == Role.user)).length < k) :
    nthUserIdxRev l k = none := by
  induction l generalizing k with
  | nil => rfl
  | cons m rest ih =>
    by_cases hm : m.role = .user
    · have hlen : (rest.filter (fun m => m.role == Role.user)).length + 1 < k := by
        simpa [List.filter_cons, hm] using h
      have hk : ¬ k ≤ 1 := by omega
      simp only [nthUserIdxRev, if_pos hm, if_neg hk,
        ih (k - 1) (by omega), Option.map_none']
    · have hlen : (rest.filter (fun m => m.role == Role.user)).length < k := by
        simpa [List.filter_cons, hm] using h
      simp only [nthUserIdxRev, if_neg hm, ih k hlen, Option.map_none']

theorem nthUserPosFromEnd_eq_none (messages : List Message) (num : Nat)
    (h : userMsgCount messages < num) :
    nthUserPosFromEnd messages num = none := by
  have hrev : (messages.reverse.filter (fun m => m.role == Role.user)).length < num := by
    rw [List.filter_reverse, List.length_reverse]
    exact h
  simp only [nthUserPosFromEnd, nthUserIdxRev_eq_none _ _ hrev, Option.map_none']

/-- C2 (amended): with fewer than K role=user messages (K ≥ 1), the
recent window computed by `GetRecentUserMsgsWithNum` is empty, and the
older window computed by `GetOldUserMsgsWithNum` is everything after the
first system message when K is below the list length (empty when the
system message is the final element), and empty when K reaches the list
length. -/
theorem windowing_few_users (messages : List Message) (K : Int)
    (hK : 1 ≤ K) (hcount : (userMsgCount messages : Int) < K) :
    GetRecentUserMsgsWithNum messages K = [] ∧
    GetOldUserMsgsWithNum messages K =
      (if K ≥ (messages.length : Int) then []
       else if sysPos messages + 1 ≥ messages.length then []
       else messages.drop (sysPos messages + 1)) := by
  have hK0 : ¬ K ≤ 0 := by omega
  have hcnt : userMsgCount messages < K.toNat := by omega
  have hnone := nthUserPosFromEnd_eq_none messages K.toNat hcnt
  constructor
  · simp only [GetRecentUserMsgsWithNum, if_neg hK0, hnone]
  · by_cases hlen : K ≥ (messages.length : Int)
    · simp only [GetOldUserMsgsWithNum, if_neg hK0, if_pos hlen]
    · simp only [GetOldUserMsgsWithNum, if_neg hK0, if_neg hlen, hnone]

/-- Witness for the amended C2 at a list with two user messages and
K = 3. -/
theorem windowing_few_users_witness :
    (1 : Int) ≤ 3 ∧
    ((userMsgCount [Message.mk .system (.str "s"), Message.mk .user (.str "u1"),
       Message.mk .assistant (.str "a"), Message.mk .user (.str "u2")] : Int) < 3) ∧
    GetRecentUserMsgsWithNum [Message.mk .system (.str "s"),
      Message.mk .user (.str "u1"), Message.mk .assistant (.str "a"),
      Message.mk .user (.str "u2")] 3 = [] :=
  ⟨by decide, by decide,
    (windowing_few_users [Message.mk .system (.str "s"), Message.mk .user (.str "u1"),
      Message.mk .assistant (.str "a"), Message.mk .user (.str "u2")] 3
      (by decide) (by decide)).1⟩

/-- Counterexample to C2 as stated: a list with a system message and two
user messages, K = 3 — the code computes an empty recent window and a
non-empty older window, not the other way around. -/
theorem windowing_few_users_counterexample :
    ¬ (GetRecentUserMsgsWithNum [Message.mk .system (.str "s"),
         Message.mk .user (.str "u1"), Message.mk .assistant (.str "a"),
         Message.mk .user (.str "u2")] 3 =
       [Message.mk .user (.str "u1"), Message.mk .assistant (.str "a"),
         Message.mk .user (.str "u2")] ∧
       GetOldUserMsgsWithNum [Message.mk .system (.str "s"),
         Message.mk .user (.str "u1"), Message.mk .assistant (.str "a"),
         Message.mk .user (.str "u2")] 3 = []) := by
  decide

/-- C3 (amended): no stage-local condition aborts the chain — for every
non-nil state both excerpted stages pass control to the next stage, and
an unmet precondition leaves the state unchanged (the prompt degrades to
the unmodified input); but the recorded `Handled` flag is not uniformly
false on an unmet precondition: the loop detector records handled=true
for every non-nil state, while the extractor always leaves
handled=false.  Only a nil prompt message stops the loop detector from
advancing. -/
theorem pipeline_degrade_policy (pm : PromptMsg) :
    (loopDetectorExecute (some pm)).passedToNext = true ∧
    (loopDetectorExecute (some pm)).handled = true ∧
    (toolDescExecute pm).passedToNext = true ∧
    (toolDescExecute pm).handled = false ∧
    (pm.olderUserMsgList.length < 3 →
      (loopDetectorExecute (some pm)).state = some pm) ∧
    (loopDetectorExecute none).passedToNext = false := by
  refine ⟨rfl, rfl, ?_, ?_, ?_, rfl⟩
  · unfold toolDescExecute
    rcases h1 : extractSystemContent pm.systemMsg with e | sc
    · rfl
    · simp only []
      rcases h2 : findToolDescriptionBounds sc with _ | ⟨s, t⟩
      · rfl
      · simp only []
        rcases h3 : addToolDescriptionToUserMessage pm (goSlice sc s t) with e | pm1
        · rfl
        · rfl
  · unfold toolDescExecute
    rcases h1 : extractSystemContent pm.systemMsg with e | sc
    · rfl
    · simp only []
      rcases h2 : findToolDescriptionBounds sc with _ | ⟨s, t⟩
      · rfl
      · simp only []
        rcases h3 : addToolDescriptionToUserMessage pm (goSlice sc s t) with e | pm1
        · rfl
        · rfl
  · intro h
    simp only [loopDetectorExecute, detectAndHandleLoops, if_pos h]

/-- Witness for the amended C3 at a state whose older window is empty. -/
theorem pipeline_degrade_policy_witness :
    (loopDetectorExecute (some (PromptMsg.mk (Message.mk .system (.str "s"))
      [] [] none))).passedToNext = true ∧
    ((PromptMsg.mk (Message.mk .system (.str "s")) [] [] none).olderUserMsgList.length < 3 ∧
     (loopDetectorExecute (some (PromptMsg.mk (Message.mk .system (.str "s"))
       [] [] none))).state = some (PromptMsg.mk (Message.mk .system (.str "s")) [] [] none)) :=
  ⟨(pipeline_degrade_policy (PromptMsg.mk (Message.mk .system (.str "s")) [] [] none)).1,
    by decide,
    (pipeline_degrade_policy (PromptMsg.mk (Message.mk .system (.str "s")) [] [] none)).2.2.2.2.1
      (by decide)⟩

/-- Counterexample to C3 as stated: at a state whose older window is
empty the loop detector's precondition is not met, yet the stage records
handled=true, not handled=false. -/
theorem pipeline_degrade_policy_counterexample :
    (PromptMsg.mk (Message.mk .system (.str "s")) [] []
      none).olderUserMsgList.length < 3 ∧
    ¬ ((loopDetectorExecute (some (PromptMsg.mk (Message.mk .system (.str "s"))
        [] [] none))).handled = false) := by
  decide

/-- C5: loop-detector behaviour — when the older window has at least 3
messages, its two most recent assistant messages have equal trimmed
text, a last user message exists and its contents extract, exactly the
intervention block is appended to the last user message and nothing else
changes; when the trimmed texts differ, the older window is shorter than
3, or fewer than two assistant messages exist, the state is unchanged. -/
theorem loopDetector_behaviour (pm : PromptMsg) :
    (∀ a0 a1 u cs, 3 ≤ pm.olderUserMsgList.length →
      lastAssistants pm.olderUserMsgList = [a0, a1] →
      goTrimSpace (GetContentAsString a0.content)
        = goTrimSpace (GetContentAsString a1.content) →
      pm.lastUserMsg = some u →
      ExtractMsgContent u.content = .ok cs →
      detectAndHandleLoops pm =
        { pm with lastUserMsg := some { u with
            content := .contents (cs ++ [interventionContent]) } }) ∧
    (pm.olderUserMsgList.length < 3 → detectAndHandleLoops pm = pm) ∧
    (∀ a0 a1, lastAssistants pm.olderUserMsgList = [a0, a1] →
      goTrimSpace (GetContentAsString a0.content)
        ≠ goTrimSpace (GetContentAsString a1.content) →
      detectAndHandleLoops pm = pm) ∧
    ((lastAssistants pm.olderUserMsgList).length < 2 →
      detectAndHandleLoops pm = pm) := by
  refine ⟨?_, ?_, ?_, ?_⟩
  · intro a0 a1 u cs hlen hla heq hu hcs
    have h3 : ¬ pm.olderUserMsgList.length < 3 := by omega
    simp only [detectAndHandleLoops, if_neg h3, hla, if_pos heq,
      addInterventionToUserMessage, hu, hcs]
  · intro h
    simp only [detectAndHandleLoops, if_pos h]
  · intro a0 a1 hla hne
    by_cases h3 : pm.olderUserMsgList.length < 3
    · simp only [detectAndHandleLoops, if_pos h3]
    · simp only [detectAndHandleLoops, if_neg h3, hla, if_neg hne]
  · intro h2
    by_cases h3 : pm.olderUserMsgList.length < 3
    · simp only [detectAndHandleLoops, if_pos h3]
    · rcases hla : lastAssistants pm.olderUserMsgList with _ | ⟨x, _ | ⟨y, rest⟩⟩
      · simp only [detectAndHandleLoops, if_neg h3, hla]
      · simp only [detectAndHandleLoops, if_neg h3, hla]
      · rw [hla] at h2
        simp only [List.length_cons] at h2
        omega

/-- The concrete looping state used to witness C5: older window of three
messages whose two assistant turns carry `"X "` and `"X"`. -/
def pmLoop : PromptMsg :=
  { systemMsg := Message.mk .system (.str "s"),
    olderUserMsgList := [Message.mk .user (.str "q"),
      Message.mk .assistant (.str "X "), Message.mk .assistant (.str "X")],
    recentUserMsgList := [Message.mk .user (.str "hi")],
    lastUserMsg := some (Message.mk .user (.str "hi")) }

/-- Witness for C5 at `pmLoop`: the hypotheses hold and exactly one
intervention block is appended to the last user message. -/
theorem loopDetector_behaviour_witness :
    3 ≤ pmLoop.olderUserMsgList.length ∧
    lastAssistants pmLoop.olderUserMsgList =
      [Message.mk .assistant (.str "X "), Message.mk .assistant (.str "X")] ∧
    goTrimSpace (GetContentAsString (ContentVal.str "X "))
      = goTrimSpace (GetContentAsString (ContentVal.str "X")) ∧
    pmLoop.lastUserMsg = some (Message.mk .user (.str "hi")) ∧
    ExtractMsgContent (ContentVal.str "hi") =
      .ok [Content.mk ContTypeText "hi" false] ∧
    detectAndHandleLoops pmLoop =
      { pmLoop with lastUserMsg := some (Message.mk .user (.contents
          [Content.mk ContTypeText "hi" false, interventionContent])) } :=
  ⟨by decide, by decide, by decide, by decide, by decide,
    (loopDetector_behaviour pmLoop).1
      (Message.mk .assistant (.str "X ")) (Message.mk .assistant (.str "X"))
      (Message.mk .user (.str "hi")) [Content.mk ContTypeText "hi" false]
      (by decide) (by decide) (by decide) (by decide) (by decide)⟩

/-- The spec's schematic system message with `B` instantiated to
`"blockB"`. -/
def sysStr1 : String := "A ====\n\nTOOL USE blockB\n\n====\n\nCAPABILITIES C"

/-- A state whose system message holds the delimiter pair but which has
no last user message. -/
def pmNoUser : PromptMsg :=
  { systemMsg := Message.mk .system (.str sysStr1),
    olderUserMsgList := [], recentUserMsgList := [], lastUserMsg := none }

/-- A state whose last user message's content cannot be normalized, so
injection fails. -/
def pmBadUser : PromptMsg :=
  { systemMsg := Message.mk .system (.str sysStr1),
    olderUserMsgList := [], recentUserMsgList := [],
    lastUserMsg := some (Message.mk .user .other) }

/-- C1 (amended): the tool-description block is removed from the system
message only when `addToolDescriptionToUserMessage` returns success, and
whenever it returns an error the whole state is left untouched; when no
delimiter pair is found the stage changes nothing.  (Success without
injection is possible — see the counterexample — so removal does not
imply the block is present in a user message.) -/
theorem toolDesc_atomicity_amended (pm : PromptMsg) (sc : String)
    (hsc : extractSystemContent pm.systemMsg = .ok sc) :
    (findToolDescriptionBounds sc = none → (toolDescExecute pm).state = some pm) ∧
    (∀ s e, findToolDescriptionBounds sc = some (s, e) →
      (∃ msg, addToolDescriptionToUserMessage pm (goSlice sc s e) = .error msg) →
      (toolDescExecute pm).state = some pm) ∧
    (∀ s e pm1, findToolDescriptionBounds sc = some (s, e) →
      addToolDescriptionToUserMessage pm (goSlice sc s e) = .ok pm1 →
      (toolDescExecute pm).state =
        some (UpdateSystemMsg pm1 (goTake sc s ++ goDrop sc e))) := by
  refine ⟨?_, ?_, ?_⟩
  · intro hb
    simp only [toolDescExecute, hsc, hb]
  · rintro s e hb ⟨msg, hmsg⟩
    simp only [toolDescExecute, hsc, hb, hmsg]
  · intro s e pm1 hb hok
    simp only [toolDescExecute, hsc, hb, hok]

/-- Witness for the amended C1: at `pmBadUser` injection fails and the
stage leaves the state untouched. -/
theorem toolDesc_atomicity_amended_witness :
    extractSystemContent pmBadUser.systemMsg = .ok sysStr1 ∧
    findToolDescriptionBounds sysStr1 = some (2, 23) ∧
    addToolDescriptionToUserMessage pmBadUser (goSlice sysStr1 2 23) =
      .error "unsupported content type" ∧
    (toolDescExecute pmBadUser).state = some pmBadUser :=
  ⟨by decide, by decide, by decide,
    (toolDesc_atomicity_amended pmBadUser sysStr1 (by decide)).2.1 2 23 (by decide)
      ⟨"unsupported content type", by decide⟩⟩

/-- Counterexample to C1 as stated: with no last user message the
injection step succeeds vacuously, the block is removed from the system
message, and the documentation is present in no message — the state the
claim says is unreachable. -/
theorem toolDesc_atomicity_counterexample :
    (toolDescExecute pmNoUser).state =
      some { systemMsg := Message.mk .system (.str "A \n\n====\n\nCAPABILITIES C"),
             olderUserMsgList := [], recentUserMsgList := [],
             lastUserMsg := none } ∧
    goContains sysStr1 "blockB" = true ∧
    goContains "A \n\n====\n\nCAPABILITIES C" "blockB" = false := by
  decide

/-- The spec's schematic system message with `B` instantiated to a block
holding an apply_diff section followed by another section. -/
def sysStr2 : String :=
  "A ====\n\nTOOL USE intro\n## apply_diff\nusage\n## other\ntail\n\n====\n\nCAPABILITIES C"

/-- Plain scenario state: delimiters present, no parse-failure marker
anywhere. -/
def pmPlain : PromptMsg :=
  { systemMsg := Message.mk .system (.str sysStr1),
    olderUserMsgList := [], recentUserMsgList := [],
    lastUserMsg := some (Message.mk .user (.str "hello")) }

/-- Marker scenario state: the parse-failure marker sits in the last
user message and the tool description holds a bounded apply_diff
section. -/
def pmMarkerUser : PromptMsg :=
  { systemMsg := Message.mk .system (.str sysStr2),
    olderUserMsgList := [], recentUserMsgList := [],
    lastUserMsg := some (Message.mk .user
      (.str "tool result: Failed to parse apply_diff XML")) }

/-- Marker-in-prior-message state: the marker sits in an earlier
assistant message of the older window, while the last user message does
not contain it. -/
def pmMarkerPrior : PromptMsg :=
  { systemMsg := Message.mk .system (.str sysStr2),
    olderUserMsgList := [Message.mk .assistant (.str "Failed to parse apply_diff XML"),
      Message.mk .user (.str "x"), Message.mk .assistant (.str "y")],
    recentUserMsgList := [],
    lastUserMsg := some (Message.mk .user (.str "hello")) }

/-- C4 (amended): on the schematic system message the block `B` is
removed from the system message and injected into the last user message;
and when the *last user message's* text (not an arbitrary prior
message's) contains the parse-failure marker and a bounded apply_diff
subsection exists inside `B`, only that subsection is injected. -/
theorem toolDesc_behaviour_amended :
    (toolDescExecute pmPlain).state =
      some { systemMsg := Message.mk .system (.str "A \n\n====\n\nCAPABILITIES C"),
             olderUserMsgList := [], recentUserMsgList := [],
             lastUserMsg := some (Message.mk .user (.contents
               [Content.mk ContTypeText "hello" false,
                Content.mk ContTypeText
                  "<tool_description>\n====\n\nTOOL USE blockB</tool_description>"
                  true])) } ∧
    goContains "A \n\n====\n\nCAPABILITIES C" "blockB" = false ∧
    goContains "<tool_description>\n====\n\nTOOL USE blockB</tool_description>"
      "blockB" = true ∧
    (toolDescExecute pmMarkerUser).state =
      some { systemMsg := Message.mk .system (.str "A \n\n====\n\nCAPABILITIES C"),
             olderUserMsgList := [], recentUserMsgList := [],
             lastUserMsg := some (Message.mk .user (.contents
               [Content.mk ContTypeText
                  "tool result: Failed to parse apply_diff XML" false,
                Content.mk ContTypeText
                  "<apply_diff_usage>\n## apply_diff\nusage</apply_diff_usage>"
                  true])) } ∧
    goContains "<apply_diff_usage>\n## apply_diff\nusage</apply_diff_usage>"
      "intro" = false ∧
    goContains "<apply_diff_usage>\n## apply_diff\nusage</apply_diff_usage>"
      "tail" = false := by
  decide

/-- Counterexample to C4 as stated: the parse-failure marker sits in a
prior (older-window) message but not in the last user message, and the
stage injects the whole block `B`, not only the apply_diff subsection. -/
theorem toolDesc_behaviour_counterexample :
    goContains (GetContentAsString
      (Message.mk .assistant (.str "Failed to parse apply_diff XML")).content)
      ApplyDiffErrorMessage = true ∧
    pmMarkerPrior.olderUserMsgList.head? =
      some (Message.mk .assistant (.str "Failed to parse apply_diff XML")) ∧
    (toolDescExecute pmMarkerPrior).state =
      some { systemMsg := Message.mk .system (.str "A \n\n====\n\nCAPABILITIES C"),
             olderUserMsgList := pmMarkerPrior.olderUserMsgList,
             recentUserMsgList := [],
             lastUserMsg := some (Message.mk .user (.contents
               [Content.mk ContTypeText "hello" false,
                Content.mk ContTypeText
                  "<tool_description>\n====\n\nTOOL USE intro\n## apply_diff\nusage\n## other\ntail</tool_description>"
                  true])) } ∧
    goContains
      "<tool_description>\n====\n\nTOOL USE intro\n## apply_diff\nusage\n## other\ntail</tool_description>"
      "tail" = true := by
  decide

/-- C6: parsing the inbound list fails exactly when it is empty, and a
failing Arrange returns the original input list unchanged. -/
theorem arrange_failure_fallback (num : Int) (run : PromptMsg → PromptMsg)
    (messages : List Message) :
    ((∃ e, NewPromptMsg num messages = .error e) ↔ messages = []) ∧
    (messages = [] → Arrange num run messages = (messages, true)) := by
  constructor
  · constructor
    · rintro ⟨e, he⟩
      by_cases h : messages.isEmpty
      · exact List.isEmpty_iff.mp h
      · simp [NewPromptMsg, h] at he
    · intro h
      subst h
      exact ⟨"empty message list", rfl⟩
  · intro h
    subst h
    rfl

/-- Witness for C6 at the empty list. -/
theorem arrange_failure_fallback_witness :
    ([] : List Message) = [] ∧
    Arrange 1 id ([] : List Message) = ([], true) ∧
    (∃ e, NewPromptMsg 1 ([] : List Message) = .error e) :=
  ⟨rfl, (arrange_failure_fallback 1 id []).2 rfl,
    (arrange_failure_fallback 1 id []).1.mpr rfl⟩

/-- C7: the Budget-Driven Summarizer leaves the older window (and with
it the assembled list) untouched at or below the token threshold with no
generation call; above the threshold with a non-empty older window and a
successful generation it collapses the older window to exactly the one
synthetic summary message; and it never invokes the generation
collaborator more than once. -/
theorem summarizer_budget_policy (tokenCount threshold : Nat)
    (olderWindow : List Message) (genResult : Except String String) :
    (tokenCount ≤ threshold →
      userCompressorExecute tokenCount threshold olderWindow genResult =
        { olderWindow := olderWindow, generateCalls := 0, handled := false }) ∧
    (threshold < tokenCount → olderWindow ≠ [] → ∀ s, genResult = .ok s →
      (userCompressorExecute tokenCount threshold olderWindow genResult).olderWindow =
        [summaryMessage s] ∧
      (userCompressorExecute tokenCount threshold olderWindow genResult).generateCalls = 1) ∧
    (threshold < tokenCount → ∀ e, genResult = .error e →
      (userCompressorExecute tokenCount threshold olderWindow genResult).olderWindow =
        olderWindow) ∧
    (userCompressorExecute tokenCount threshold olderWindow genResult).generateCalls ≤ 1 := by
  refine ⟨?_, ?_, ?_, ?_⟩
  · intro h
    simp only [userCompressorExecute, if_pos h]
  · intro hgt hne s hs
    have h1 : ¬ tokenCount ≤ threshold := by omega
    have h2 : ¬ olderWindow.isEmpty = true := by
      simpa [List.isEmpty_iff] using hne
    simp [userCompressorExecute, if_neg h1, if_neg h2, hs, hne]
  · intro hgt e he
    have h1 : ¬ tokenCount ≤ threshold := by omega
    by_cases h2 : olderWindow.isEmpty
    · simp only [userCompressorExecute, if_neg h1, if_pos h2]
    · simp only [userCompressorExecute, if_neg h1, if_neg h2, he]
  · by_cases h1 : tokenCount ≤ threshold
    · simp only [userCompressorExecute, if_pos h1]
      omega
    · by_cases h2 : olderWindow.isEmpty
      · simp only [userCompressorExecute, if_neg h1, if_pos h2]
        omega
      · rcases genResult with e | s
        · simp only [userCompressorExecute, if_neg h1, if_neg h2]
          omega
        · simp only [userCompressorExecute, if_neg h1, if_neg h2]
          omega

/-- Witness for C7 above the threshold with a successful generation
call. -/
theorem summarizer_budget_policy_witness :
    (5 : Nat) < 10 ∧ ([Message.mk .user (.str "old")] : List Message) ≠ [] ∧
    (Except.ok "summary" : Except String String) = .ok "summary" ∧
    (userCompressorExecute 10 5 [Message.mk .user (.str "old")]
      (.ok "summary")).olderWindow = [summaryMessage "summary"] :=
  ⟨by decide, by decide, rfl,
    ((summarizer_budget_policy 10 5 [Message.mk .user (.str "old")]
      (.ok "summary")).2.1 (by decide) (by decide) "summary" rfl).1⟩
